import Mathlib

/-!
Verification of the dimensional-quantity subsystem and the time-unit
normalization algorithm of the `cloudmodel` package
(`cloudmodel/unified/units.py` and `cloudmodel/unified/model.py`).

Magnitudes are modelled as rationals, so the "within floating-point
tolerance" clauses of the specification become exact equalities.  A unit
expression is a list of (symbol, exponent) pairs; the pint unit registry
(with the extra units defined at the top of `units.py`) is modelled as a
finite association list from symbols to (scale, dimension) pairs, where
the scale is the factor to the base unit of each dimension.
-/

/-- Physical dimension: exponent vector over the base dimensions that occur
in the program (time, length, currency, computation, requests).  pint's
`[]` (dimensionless) is the zero vector. -/
structure Dimensionality where
  time : Int
  length : Int
  currency : Int
  computation : Int
  requests : Int
deriving DecidableEq, Repr

/-- The dimensionless dimension `[]`. -/
def dimNone : Dimensionality := ⟨0, 0, 0, 0, 0⟩

/-- `[time]`. -/
def dimTime : Dimensionality := ⟨1, 0, 0, 0, 0⟩

/-- `[currency]`. -/
def dimCurrency : Dimensionality := ⟨0, 0, 1, 0, 0⟩

/-- `[computation]`. -/
def dimComputation : Dimensionality := ⟨0, 0, 0, 1, 0⟩

/-- `[requests]`. -/
def dimRequests : Dimensionality := ⟨0, 0, 0, 0, 1⟩

/-- `[requests]/[time]` (pint's derived `[performance]`). -/
def dimRequestsPerTime : Dimensionality := ⟨-1, 0, 0, 0, 1⟩

/-- `[currency]/[time]`. -/
def dimCurrencyPerTime : Dimensionality := ⟨-1, 0, 1, 0, 0⟩

/-- Pointwise sum of two dimension vectors (dimension of a product). -/
def Dimensionality.add (a b : Dimensionality) : Dimensionality :=
  ⟨a.time + b.time, a.length + b.length, a.currency + b.currency,
   a.computation + b.computation, a.requests + b.requests⟩

/-- Dimension of a power: all exponents multiplied by `n`. -/
def Dimensionality.smul (n : Int) (a : Dimensionality) : Dimensionality :=
  ⟨n * a.time, n * a.length, n * a.currency, n * a.computation, n * a.requests⟩

/-- A registry entry: conversion factor to the base unit of the dimension,
and the dimension itself. -/
structure UnitDef where
  scale : ℚ
  dim : Dimensionality
deriving DecidableEq, Repr

/-- The unit registry: pint's default registry restricted to the symbols the
program and its tests exercise, plus the units defined in `units.py`
(`usd = [currency]`, `cores = [computation] = 2*vcores`,
`millicores = 0.001 cores`, `req = [requests]`, `rps = req/second`,
`rpm = req/minute`, `rph = req/hour`).  pint's information units (bit,
byte, MiB, GiB) are dimensionless.  `eur` is deliberately absent. -/
def uregList : List (String × UnitDef) :=
  [("second", ⟨1, dimTime⟩),
   ("minute", ⟨60, dimTime⟩),
   ("hour", ⟨3600, dimTime⟩),
   ("day", ⟨86400, dimTime⟩),
   ("millisecond", ⟨1/1000, dimTime⟩),
   ("meter", ⟨1, ⟨0, 1, 0, 0, 0⟩⟩),
   ("cm", ⟨1/100, ⟨0, 1, 0, 0, 0⟩⟩),
   ("liter", ⟨1/1000, ⟨0, 3, 0, 0, 0⟩⟩),
   ("usd", ⟨1, dimCurrency⟩),
   ("cores", ⟨1, dimComputation⟩),
   ("vcores", ⟨1/2, dimComputation⟩),
   ("millicores", ⟨1/1000, dimComputation⟩),
   ("req", ⟨1, dimRequests⟩),
   ("rps", ⟨1, dimRequestsPerTime⟩),
   ("rpm", ⟨1/60, dimRequestsPerTime⟩),
   ("rph", ⟨1/3600, dimRequestsPerTime⟩),
   ("bit", ⟨1, dimNone⟩),
   ("byte", ⟨8, dimNone⟩),
   ("MiB", ⟨8388608, dimNone⟩),
   ("GiB", ⟨8589934592, dimNone⟩)]

/-- Registry lookup of a single unit symbol. -/
def ureg (s : String) : Option UnitDef :=
  (uregList.find? (fun p => p.1 = s)).map (fun p => p.2)

/-- Integer power on rationals, written structurally so that concrete
instances reduce by `decide`. -/
def zpowQ (q : ℚ) : Int → ℚ
  | .ofNat n => q ^ n
  | .negSucc n => (q ^ (n + 1))⁻¹

/-- A unit expression: product of registered symbols raised to integer
exponents (e.g. `usd/hour` is `[("usd", 1), ("hour", -1)]`; a bare number
has the empty expression). -/
def UnitExpr := List (String × Int)
deriving DecidableEq, Repr

/-- Resolving a unit expression against the registry, as pint's parser
does: the first unregistered symbol is reported (pint's
UndefinedUnitError); otherwise scales multiply and dimensions add. -/
def evalUnit : UnitExpr → Except String UnitDef
  | [] => .ok ⟨1, dimNone⟩
  | (s, e) :: rest =>
    match ureg s with
    | none => .error s
    | some d =>
      match evalUnit rest with
      | .error s' => .error s'
      | .ok r => .ok ⟨zpowQ d.scale e * r.scale, (Dimensionality.smul e d.dim).add r.dim⟩

/-- A pint quantity: a magnitude together with the unit expression it is
expressed in. -/
structure PintQuantity where
  magnitude : ℚ
  units : UnitExpr
deriving DecidableEq, Repr

/-- The errors pint raises for the operations modelled here, plus the two
Python errors `normalize_time_units` can hit on malformed input
(`list.index` ValueError, list subscript IndexError). -/
inductive UnitsError where
  | undefinedUnit (s : String)
  | dimensionalityError
  | valueError
  | indexError
deriving DecidableEq, Repr

/-- `CheckedDimensionality.__new__` (units.py lines 28-35): parse the value
against the registry (UndefinedUnitError if a symbol is unknown), then
check the parsed dimension against the subclass's required dimension
(DimensionalityError on mismatch). -/
def CheckedDimensionality.new (dims : Dimensionality) (magnitude : ℚ) (u : UnitExpr) :
    Except UnitsError PintQuantity :=
  match evalUnit u with
  | .error s => .error (.undefinedUnit s)
  | .ok d =>
    if d.dim = dims then .ok ⟨magnitude, u⟩ else .error .dimensionalityError

/-- `Time`, checked against `[time]`. -/
def Time : ℚ → UnitExpr → Except UnitsError PintQuantity :=
  CheckedDimensionality.new dimTime

/-- `Storage`, checked against `[]` (dimensionless; the `bit = [storage]`
definition is commented out in units.py). -/
def Storage : ℚ → UnitExpr → Except UnitsError PintQuantity :=
  CheckedDimensionality.new dimNone

/-- `RequestsPerTime`, checked against `[requests]/[time]`. -/
def RequestsPerTime : ℚ → UnitExpr → Except UnitsError PintQuantity :=
  CheckedDimensionality.new dimRequestsPerTime

/-- `CurrencyPerTime`, checked against `[currency]/[time]`. -/
def CurrencyPerTime : ℚ → UnitExpr → Except UnitsError PintQuantity :=
  CheckedDimensionality.new dimCurrencyPerTime

/-- `ComputationalUnits`, checked against `[computation]`. -/
def ComputationalUnits : ℚ → UnitExpr → Except UnitsError PintQuantity :=
  CheckedDimensionality.new dimComputation

/-- `Currency`, checked against `[currency]`. -/
def Currency : ℚ → UnitExpr → Except UnitsError PintQuantity :=
  CheckedDimensionality.new dimCurrency

/-- `Requests`, checked against `[requests]`. -/
def Requests : ℚ → UnitExpr → Except UnitsError PintQuantity :=
  CheckedDimensionality.new dimRequests

/-- pint's `Quantity.to(target)`: resolve both unit expressions, require
equal dimensions (DimensionalityError otherwise), and re-express the
magnitude in the target unit.  Returns a new quantity; the receiver is a
pure value. -/
def PintQuantity.to (q : PintQuantity) (target : UnitExpr) : Except UnitsError PintQuantity :=
  match evalUnit target with
  | .error s => .error (.undefinedUnit s)
  | .ok dst =>
    match evalUnit q.units with
    | .error s => .error (.undefinedUnit s)
    | .ok src =>
      if src.dim = dst.dim then
        .ok ⟨q.magnitude * src.scale / dst.scale, target⟩
      else .error .dimensionalityError

/-- The value of a quantity expressed in the base unit of its dimension;
two quantities of the same dimension are "equal when expressed in the same
unit" exactly when their base values coincide. -/
def PintQuantity.baseValue (q : PintQuantity) : Except String ℚ :=
  match evalUnit q.units with
  | .error s => .error s
  | .ok d => .ok (q.magnitude * d.scale)

/-- pint's `==` on quantities: if both unit expressions resolve, compare
dimension and base value (different dimensions compare unequal); quantities
with unresolvable units cannot be produced by the program, so that case
falls back to structural equality. -/
def PintQuantity.pintEq (a b : PintQuantity) : Bool :=
  match evalUnit a.units, evalUnit b.units with
  | .ok da, .ok db =>
    decide (da.dim = db.dim) && decide (a.magnitude * da.scale = b.magnitude * db.scale)
  | _, _ => decide (a = b)

/-- `App` (model.py): an application identifier. -/
structure App where
  name : String
deriving DecidableEq, Repr

/-- `WorkloadSeries` (model.py): per-timeslot request workloads for one
application. -/
structure WorkloadSeries where
  description : String
  values : List PintQuantity
  time_slot_size : PintQuantity
  intra_slot_distribution : String
deriving DecidableEq, Repr

/-- `LimitingSet` (model.py): deployment-capacity restriction. -/
structure LimitingSet where
  name : String
  max_vms : Int
  max_cores : PintQuantity
deriving DecidableEq, Repr

/-- `InstanceClass` (model.py): a priced VM offering.  A plain frozen
dataclass: the constructor stores every field exactly as passed (the
`__post_init__` normalization is commented out in the source). -/
structure InstanceClass where
  name : String
  price : PintQuantity
  cores : PintQuantity
  mem : PintQuantity
  limit : Int
  limiting_sets : List LimitingSet
  is_reserved : Bool
  is_private : Bool
deriving DecidableEq, Repr

/-- `ContainerClass` (model.py): a container footprint bound to one App;
also a plain frozen dataclass storing its fields verbatim. -/
structure ContainerClass where
  name : String
  cores : PintQuantity
  mem : PintQuantity
  app : App
  limit : Int
deriving DecidableEq, Repr

/-- `ProcessClass` (model.py). -/
structure ProcessClass where
  name : String
  ecu : ℚ
  mem : ℚ
  app : App
  limit : Int
deriving DecidableEq, Repr

/-- The middle component of a performance-table key:
`ContainerClass | ProcessClass | None`. -/
def CCKey := Option (ContainerClass ⊕ ProcessClass)
deriving DecidableEq, Repr

/-- A performance-table key `(InstanceClass, ContainerClass|ProcessClass|None, App)`. -/
def PerfKey := InstanceClass × CCKey × App
deriving DecidableEq, Repr

/-- `System` (model.py).  The performance dict is modelled as an
association list in insertion order. -/
structure System where
  name : String
  ics : List InstanceClass
  ccs : List ContainerClass
  perfs : List (PerfKey × PintQuantity)
deriving DecidableEq, Repr

/-- `Problem` (model.py).  The per-App workload dict is modelled as an
association list in insertion order. -/
structure Problem where
  name : String
  system : System
  workloads : List (App × WorkloadSeries)
  sched_time_size : PintQuantity
  version : String
deriving DecidableEq, Repr

/-- Python `==` on `LimitingSet` dataclasses: fieldwise, with pint equality
on the quantity field. -/
def LimitingSet.pyEq (a b : LimitingSet) : Bool :=
  decide (a.name = b.name) && decide (a.max_vms = b.max_vms) && a.max_cores.pintEq b.max_cores

/-- Python `==` on tuples of `LimitingSet`: equal lengths and elementwise
equality. -/
def limitingSetsEq : List LimitingSet → List LimitingSet → Bool
  | [], [] => true
  | a :: as', b :: bs' => a.pyEq b && limitingSetsEq as' bs'
  | _, _ => false

/-- Python `==` on `InstanceClass` dataclasses: fieldwise, with pint
equality on the quantity fields. -/
def InstanceClass.pyEq (a b : InstanceClass) : Bool :=
  decide (a.name = b.name) && a.price.pintEq b.price && a.cores.pintEq b.cores
    && a.mem.pintEq b.mem && decide (a.limit = b.limit)
    && limitingSetsEq a.limiting_sets b.limiting_sets
    && decide (a.is_reserved = b.is_reserved) && decide (a.is_private = b.is_private)

/-- Python `list.index` on a list of `InstanceClass`: position of the first
element equal (in Python's sense) to `x`, `none` when absent (Python raises
ValueError). -/
def pyIndex (l : List InstanceClass) (x : InstanceClass) : Option Nat :=
  match l with
  | [] => none
  | a :: rest =>
    if a.pyEq x then some 0
    else match pyIndex rest x with
      | some n => some (n + 1)
      | none => none

/-- Left-to-right effectful map over a list in the `Except` monad,
mirroring a Python for-loop that appends to a result and may raise. -/
def mapExcept (f : α → Except UnitsError β) : List α → Except UnitsError (List β)
  | [] => .ok []
  | a :: rest =>
    match f a with
    | .error e => .error e
    | .ok b =>
      match mapExcept f rest with
      | .error e => .error e
      | .ok bs => .ok (b :: bs)

/-- The per-WorkloadSeries scale factor of `normalize_time_units`
(model.py lines 218-224): `magnitude / to(units).magnitude` when the slot
magnitude is nonzero, and zero otherwise (no conversion is attempted in
that case). -/
def scaleFactor (units : String) (wl : WorkloadSeries) : Except UnitsError ℚ :=
  if wl.time_slot_size.magnitude ≠ 0 then
    match wl.time_slot_size.to [(units, 1)] with
    | .error e => .error e
    | .ok c => .ok (wl.time_slot_size.magnitude / c.magnitude)
  else .ok 0

/-- The body of the workload loop of `normalize_time_units` (model.py
lines 217-231): rescale every value by the factor and replace the slot
size by `Time(units)` (pint parses a bare unit name as magnitude 1). -/
def rescaleWorkload (units : String) (wl : WorkloadSeries) : Except UnitsError WorkloadSeries :=
  match scaleFactor units wl with
  | .error e => .error e
  | .ok factor =>
    match Time 1 [(units, 1)] with
    | .error e => .error e
    | .ok ts =>
      .ok ⟨wl.description, wl.values.map (fun v => ⟨v.magnitude * factor, v.units⟩),
           ts, wl.intra_slot_distribution⟩

/-- The body of the InstanceClass loop of `normalize_time_units` (model.py
lines 232-245): convert the price to `usd/units`, copy every other field. -/
def rescaleIC (units : String) (ic : InstanceClass) : Except UnitsError InstanceClass :=
  match ic.price.to [("usd", 1), (units, -1)] with
  | .error e => .error e
  | .ok pr =>
    .ok ⟨ic.name, pr, ic.cores, ic.mem, ic.limit, ic.limiting_sets,
         ic.is_reserved, ic.is_private⟩

/-- The body of the performance loop of `normalize_time_units` (model.py
lines 246-250): look the key's InstanceClass up in the original list
(`list.index`, ValueError when absent), convert the value to `req/units`,
and re-key on the rescaled InstanceClass at the same position. -/
def rescalePerf (units : String) (oldIcs newIcs : List InstanceClass)
    (entry : PerfKey × PintQuantity) : Except UnitsError (PerfKey × PintQuantity) :=
  match pyIndex oldIcs entry.1.1 with
  | none => .error .valueError
  | some j =>
    match entry.2.to [("req", 1), (units, -1)] with
    | .error e => .error e
    | .ok v =>
      match newIcs[j]? with
      | none => .error .indexError
      | some ic => .ok ((ic, entry.1.2.1, entry.1.2.2), v)

/-- One entry of the workload dict of `normalize_time_units`: the app key
is kept, the series is rescaled. -/
def rescaleWorkloadEntry (units : String) (pr : App × WorkloadSeries) :
    Except UnitsError (App × WorkloadSeries) :=
  match rescaleWorkload units pr.2 with
  | .error e => .error e
  | .ok w => .ok (pr.1, w)

/-- `normalize_time_units` (model.py lines 214-263). -/
def normalize_time_units (problem : Problem) (units : String) : Except UnitsError Problem :=
  match problem.sched_time_size.to [(units, 1)] with
  | .error e => .error e
  | .ok sched =>
    match mapExcept (rescaleWorkloadEntry units) problem.workloads with
    | .error e => .error e
    | .ok workloads =>
      match mapExcept (rescaleIC units) problem.system.ics with
      | .error e => .error e
      | .ok ics =>
        match mapExcept (rescalePerf units problem.system.ics ics) problem.system.perfs with
        | .error e => .error e
        | .ok perfs =>
          .ok ⟨problem.name, ⟨problem.system.name, ics, problem.system.ccs, perfs⟩,
               workloads, sched, problem.version⟩

deriving instance DecidableEq for Except

attribute [local semireducible] Rat.mul Rat.inv Rat.add Rat.sub

/-- A concrete workload series: 10 and 20 requests per 15-minute slot. -/
def exWorkload : WorkloadSeries :=
  ⟨"wl", [⟨10, [("req", 1)]⟩, ⟨20, [("req", 1)]⟩], ⟨15, [("minute", 1)]⟩, "exponential"⟩

/-- A concrete instance class priced at 2 usd/hour. -/
def exIC : InstanceClass :=
  ⟨"ic0", ⟨2, [("usd", 1), ("hour", -1)]⟩, ⟨2, [("cores", 1)]⟩, ⟨4, [("GiB", 1)]⟩,
   0, [⟨"r0", 0, ⟨0, [("cores", 1)]⟩⟩], false, false⟩

/-- A concrete application. -/
def exApp : App := ⟨"a0"⟩

/-- A concrete system with one instance class, no container classes, and one
performance entry of 5 req/second. -/
def exSystem : System :=
  ⟨"sys", [exIC], [], [((exIC, none, exApp), ⟨5, [("req", 1), ("second", -1)]⟩)]⟩

/-- A concrete problem with a 15-minute scheduling window. -/
def exProblem : Problem := ⟨"p", exSystem, [(exApp, exWorkload)], ⟨15, [("minute", 1)]⟩, "0.2.0"⟩

/-- `exProblem` with the workload slot duration replaced by a zero-magnitude
time. -/
def exProblemZeroSlot : Problem :=
  ⟨"p", ⟨"sys", [], [], []⟩,
   [(exApp, ⟨"wl", [⟨10, [("req", 1)]⟩], ⟨0, [("minute", 1)]⟩, "exponential"⟩)],
   ⟨15, [("minute", 1)]⟩, "0.2.0"⟩

/-- A problem whose only instance class carries a price of dimension
`[currency]` instead of `[currency]/[time]`. -/
def exProblemBadPrice : Problem :=
  ⟨"p", ⟨"sys", [⟨"ic0", ⟨2, [("usd", 1)]⟩, ⟨2, [("cores", 1)]⟩, ⟨4, [("GiB", 1)]⟩,
                  0, [], false, false⟩], [], []⟩,
   [], ⟨15, [("minute", 1)]⟩, "0.2.0"⟩

/-- Tags for the seven checked quantity subtypes exported by units.py. -/
inductive QuantKind where
  | time
  | currency
  | currencyPerTime
  | requests
  | requestsPerTime
  | storage
  | computationalUnits
deriving DecidableEq, Repr

/-- The required dimension of each subtype, as declared in units.py. -/
def requiredDim : QuantKind → Dimensionality
  | .time => dimTime
  | .currency => dimCurrency
  | .currencyPerTime => dimCurrencyPerTime
  | .requests => dimRequests
  | .requestsPerTime => dimRequestsPerTime
  | .storage => dimNone
  | .computationalUnits => dimComputation

/-- Dispatch from a subtype tag to the subtype's constructor. -/
def constructQuant : QuantKind → ℚ → UnitExpr → Except UnitsError PintQuantity
  | .time => Time
  | .currency => Currency
  | .currencyPerTime => CurrencyPerTime
  | .requests => Requests
  | .requestsPerTime => RequestsPerTime
  | .storage => Storage
  | .computationalUnits => ComputationalUnits

/-- The quantity's unit expression resolves against the registry. -/
def unitsOk (q : PintQuantity) : Bool :=
  match evalUnit q.units with
  | .ok _ => true
  | .error _ => false

/-- The quantity's unit expression resolves to dimension `d0`. -/
def dimIs (q : PintQuantity) (d0 : Dimensionality) : Bool :=
  match evalUnit q.units with
  | .ok d => decide (d.dim = d0)
  | .error _ => false

/-- Every quantity that `normalize_time_units` touches has resolvable
units, and every performance key's InstanceClass occurs in the instance
list (so Python's `list.index` cannot raise). -/
def allRegistered (p : Problem) : Bool :=
  unitsOk p.sched_time_size &&
  p.workloads.all (fun pr => unitsOk pr.2.time_slot_size) &&
  p.system.ics.all (fun ic => unitsOk ic.price) &&
  p.system.perfs.all (fun e => unitsOk e.2 && (pyIndex p.system.ics e.1.1).isSome)

/-- Every quantity that `normalize_time_units` actually converts carries
the dimension its conversion requires (a zero-magnitude slot duration is
not converted). -/
def convertedDimsOk (p : Problem) : Bool :=
  dimIs p.sched_time_size dimTime &&
  p.workloads.all (fun pr =>
    decide (pr.2.time_slot_size.magnitude = 0) || dimIs pr.2.time_slot_size dimTime) &&
  p.system.ics.all (fun ic => dimIs ic.price dimCurrencyPerTime) &&
  p.system.perfs.all (fun e => dimIs e.2 dimRequestsPerTime)

/-- Normalizing `q` to `units` succeeds and reproduces the scheduling
window, the workloads, the instance classes, and the (container, app) key
parts and values of every performance entry exactly. -/
def renormalizeMatches (q : Problem) (units : String) : Prop :=
  match normalize_time_units q units with
  | .error _ => False
  | .ok q2 =>
      q2.sched_time_size = q.sched_time_size ∧ q2.workloads = q.workloads ∧
      q2.system.ics = q.system.ics ∧
      q2.system.perfs.map (fun e => (e.1.2, e.2)) =
        q.system.perfs.map (fun e => (e.1.2, e.2))

/-- The result of normalizing `exProblem` to hours, written out. -/
def exProblemNorm : Problem :=
  ⟨"p", ⟨"sys", [exIC], [], [((exIC, none, exApp), ⟨18000, [("req", 1), ("hour", -1)]⟩)]⟩,
   [(exApp, ⟨"wl", [⟨600, [("req", 1)]⟩, ⟨1200, [("req", 1)]⟩], ⟨1, [("hour", 1)]⟩,
             "exponential"⟩)],
   ⟨1/4, [("hour", 1)]⟩, "0.2.0"⟩

/-- Every registry entry has a positive conversion factor. -/
lemma uregList_scale_pos : ∀ p ∈ uregList, 0 < p.2.scale := by decide

/-- Registry lookups return positive conversion factors. -/
lemma ureg_scale_pos {s : String} {d : UnitDef} (h : ureg s = some d) : 0 < d.scale := by
  unfold ureg at h
  cases hf : uregList.find? (fun p => p.1 = s) with
  | none => rw [hf] at h; simp at h
  | some p =>
    rw [hf] at h
    have h2 : p.2 = d := Option.some.inj h
    subst h2
    exact uregList_scale_pos p (List.mem_of_find?_eq_some hf)

/-- Integer powers preserve positivity on ℚ. -/
lemma zpowQ_pos {q : ℚ} (hq : 0 < q) : ∀ e : Int, 0 < zpowQ q e
  | .ofNat n => by unfold zpowQ; exact pow_pos hq n
  | .negSucc n => by unfold zpowQ; exact inv_pos.mpr (pow_pos hq (n + 1))

/-- Every resolvable unit expression has a positive scale. -/
lemma evalUnit_scale_pos : ∀ {u : UnitExpr} {d : UnitDef}, evalUnit u = .ok d → 0 < d.scale
  | [], d, h => by
    unfold evalUnit at h
    simp only [Except.ok.injEq] at h
    subst h
    exact one_pos
  | (s, e) :: rest, d, h => by
    unfold evalUnit at h
    cases hs : ureg s with
    | none => rw [hs] at h; exact absurd h (by simp)
    | some sd =>
      rw [hs] at h
      cases hr : evalUnit rest with
      | error s' => rw [hr] at h; exact absurd h (by simp)
      | ok r =>
        rw [hr] at h
        simp only [Except.ok.injEq] at h
        subst h
        exact mul_pos (zpowQ_pos (ureg_scale_pos hs) e) (evalUnit_scale_pos hr)

/-- The scale of a resolvable unit expression is nonzero. -/
lemma evalUnit_scale_ne_zero {u : UnitExpr} {d : UnitDef} (h : evalUnit u = .ok d) :
    d.scale ≠ 0 :=
  ne_of_gt (evalUnit_scale_pos h)

/-- Inversion for a successful conversion: both unit expressions resolve,
to equal dimensions, and the result is the rescaled magnitude expressed in
the target. -/
lemma to_eq_ok_iff {q : PintQuantity} {target : UnitExpr} {r : PintQuantity} :
    q.to target = .ok r ↔
      ∃ src dst, evalUnit q.units = .ok src ∧ evalUnit target = .ok dst ∧
        src.dim = dst.dim ∧ r = ⟨q.magnitude * src.scale / dst.scale, target⟩ := by
  unfold PintQuantity.to
  cases ht : evalUnit target with
  | error s => simp [ht]
  | ok dst =>
    cases hq : evalUnit q.units with
    | error s => simp [hq]
    | ok src =>
      by_cases hd : src.dim = dst.dim
      · simp [hd, eq_comm]
      · simp [hd]

/-- A successful conversion preserves the base value of the quantity. -/
lemma to_ok_baseValue {q : PintQuantity} {target : UnitExpr} {r : PintQuantity}
    (h : q.to target = .ok r) : r.baseValue = q.baseValue := by
  obtain ⟨src, dst, hq, ht, hd, hr⟩ := to_eq_ok_iff.mp h
  subst hr
  unfold PintQuantity.baseValue
  simp only [ht, hq]
  congr 1
  field_simp [evalUnit_scale_ne_zero ht]

/-- A successful conversion's result is expressed in the target unit. -/
lemma to_ok_units {q : PintQuantity} {target : UnitExpr} {r : PintQuantity}
    (h : q.to target = .ok r) : r.units = target := by
  obtain ⟨src, dst, _, _, _, hr⟩ := to_eq_ok_iff.mp h
  subst hr
  rfl

/-- A conversion between resolvable units of different dimensions is a
DimensionalityError. -/
lemma to_eq_err_of_dim_ne {q : PintQuantity} {target : UnitExpr} {src dst : UnitDef}
    (hq : evalUnit q.units = .ok src) (ht : evalUnit target = .ok dst)
    (hd : src.dim ≠ dst.dim) : q.to target = .error .dimensionalityError := by
  unfold PintQuantity.to
  rw [ht, hq]
  simp [hd]

/-- A conversion between resolvable units of equal dimensions succeeds. -/
lemma to_eq_ok_of_dim_eq {q : PintQuantity} {target : UnitExpr} {src dst : UnitDef}
    (hq : evalUnit q.units = .ok src) (ht : evalUnit target = .ok dst)
    (hd : src.dim = dst.dim) :
    q.to target = .ok ⟨q.magnitude * src.scale / dst.scale, target⟩ := by
  unfold PintQuantity.to
  rw [ht, hq]
  simp [hd]

/-- A successful `mapExcept` preserves list length. -/
lemma mapExcept_ok_length {f : α → Except UnitsError β} :
    ∀ {l : List α} {l' : List β}, mapExcept f l = .ok l' → l'.length = l.length := by
  intro l
  induction l with
  | nil => intro l' h; unfold mapExcept at h; simp only [Except.ok.injEq] at h; subst h; rfl
  | cons a rest ih =>
    intro l' h
    unfold mapExcept at h
    cases hf : f a with
    | error e => rw [hf] at h; exact absurd h (by simp)
    | ok b =>
      rw [hf] at h
      cases hr : mapExcept f rest with
      | error e => rw [hr] at h; exact absurd h (by simp)
      | ok bs =>
        rw [hr] at h
        simp only [Except.ok.injEq] at h
        subst h
        simp [ih hr]

/-- Positional inversion for a successful `mapExcept`: each input element
maps successfully to the output element at the same position. -/
lemma mapExcept_ok_getElem {f : α → Except UnitsError β} :
    ∀ {l : List α} {l' : List β}, mapExcept f l = .ok l' →
      ∀ (i : Nat) (x : α), l[i]? = some x → ∃ y, f x = .ok y ∧ l'[i]? = some y := by
  intro l
  induction l with
  | nil => intro l' _ i x hx; simp at hx
  | cons a rest ih =>
    intro l' h i x hx
    unfold mapExcept at h
    cases hf : f a with
    | error e => rw [hf] at h; exact absurd h (by simp)
    | ok b =>
      rw [hf] at h
      cases hr : mapExcept f rest with
      | error e => rw [hr] at h; exact absurd h (by simp)
      | ok bs =>
        rw [hr] at h
        simp only [Except.ok.injEq] at h
        subst h
        cases i with
        | zero =>
          simp only [List.getElem?_cons_zero, Option.some.injEq] at hx
          subst hx
          exact ⟨b, hf, by simp⟩
        | succ n =>
          simp only [List.getElem?_cons_succ] at hx ⊢
          exact ih hr n x hx

/-- A successful `mapExcept` implies every element maps successfully. -/
lemma mapExcept_ok_mem {f : α → Except UnitsError β} :
    ∀ {l : List α} {l' : List β}, mapExcept f l = .ok l' →
      ∀ x ∈ l, ∃ y, f x = .ok y := by
  intro l
  induction l with
  | nil => intro l' _ x hx; simp at hx
  | cons a rest ih =>
    intro l' h x hx
    unfold mapExcept at h
    cases hf : f a with
    | error e => rw [hf] at h; exact absurd h (by simp)
    | ok b =>
      rw [hf] at h
      cases hr : mapExcept f rest with
      | error e => rw [hr] at h; exact absurd h (by simp)
      | ok bs =>
        cases List.mem_cons.mp hx with
        | inl hax => exact hax ▸ ⟨b, hf⟩
        | inr hrest => exact ih hr x hrest

/-- If every element maps successfully, so does `mapExcept`. -/
lemma mapExcept_ok_of_forall {f : α → Except UnitsError β} :
    ∀ {l : List α}, (∀ x ∈ l, ∃ y, f x = .ok y) → ∃ l', mapExcept f l = .ok l' := by
  intro l
  induction l with
  | nil => intro _; exact ⟨[], rfl⟩
  | cons a rest ih =>
    intro h
    obtain ⟨b, hb⟩ := h a (List.mem_cons_self a rest)
    obtain ⟨bs, hbs⟩ := ih (fun x hx => h x (List.mem_cons_of_mem a hx))
    refine ⟨b :: bs, ?_⟩
    unfold mapExcept
    rw [hb, hbs]

/-- If every element either maps successfully or fails with error `E`, then
`mapExcept` either succeeds or fails with `E`. -/
lemma mapExcept_dichotomy {f : α → Except UnitsError β} {E : UnitsError} :
    ∀ {l : List α}, (∀ x ∈ l, (∃ y, f x = .ok y) ∨ f x = .error E) →
      (∃ l', mapExcept f l = .ok l') ∨ mapExcept f l = .error E := by
  intro l
  induction l with
  | nil => intro _; exact .inl ⟨[], rfl⟩
  | cons a rest ih =>
    intro h
    cases h a (List.mem_cons_self a rest) with
    | inr he => right; unfold mapExcept; rw [he]
    | inl hok =>
      obtain ⟨b, hb⟩ := hok
      cases ih (fun x hx => h x (List.mem_cons_of_mem a hx)) with
      | inl hrest =>
        obtain ⟨bs, hbs⟩ := hrest
        left
        refine ⟨b :: bs, ?_⟩
        unfold mapExcept
        rw [hb, hbs]
      | inr herr =>
        right
        unfold mapExcept
        rw [hb, herr]

/-- Inversion of a successful `normalize_time_units`: all four stages
succeed and the result is assembled from their outputs. -/
lemma normalize_ok_inv {p : Problem} {units : String} {q : Problem}
    (h : normalize_time_units p units = .ok q) :
    ∃ sched workloads ics perfs,
      p.sched_time_size.to [(units, 1)] = .ok sched ∧
      mapExcept (rescaleWorkloadEntry units) p.workloads = .ok workloads ∧
      mapExcept (rescaleIC units) p.system.ics = .ok ics ∧
      mapExcept (rescalePerf units p.system.ics ics) p.system.perfs = .ok perfs ∧
      q = ⟨p.name, ⟨p.system.name, ics, p.system.ccs, perfs⟩, workloads, sched, p.version⟩ := by
  unfold normalize_time_units at h
  split at h
  · exact absurd h (by simp)
  · rename_i sched h1
    split at h
    · exact absurd h (by simp)
    · rename_i workloads h2
      split at h
      · exact absurd h (by simp)
      · rename_i ics h3
        split at h
        · exact absurd h (by simp)
        · rename_i perfs h4
          simp only [Except.ok.injEq] at h
          exact ⟨sched, workloads, ics, perfs, h1, h2, h3, h4, h.symm⟩

/-- Constructing a checked quantity from an unresolvable unit expression is
an UndefinedUnitError. -/
lemma checked_new_err_undefined {dims : Dimensionality} {mag : ℚ} {u : UnitExpr} {s : String}
    (h : evalUnit u = .error s) :
    CheckedDimensionality.new dims mag u = .error (.undefinedUnit s) := by
  unfold CheckedDimensionality.new
  rw [h]

/-- Constructing a checked quantity from a resolvable unit expression whose
dimension differs from the required one is a DimensionalityError. -/
lemma checked_new_err_dim {dims : Dimensionality} {mag : ℚ} {u : UnitExpr} {d : UnitDef}
    (h : evalUnit u = .ok d) (hd : d.dim ≠ dims) :
    CheckedDimensionality.new dims mag u = .error .dimensionalityError := by
  unfold CheckedDimensionality.new
  rw [h]
  simp [hd]

/-- Constructing a checked quantity from a resolvable unit expression of the
required dimension succeeds and stores the magnitude and units verbatim. -/
lemma checked_new_ok {dims : Dimensionality} {mag : ℚ} {u : UnitExpr} {d : UnitDef}
    (h : evalUnit u = .ok d) (hd : d.dim = dims) :
    CheckedDimensionality.new dims mag u = .ok ⟨mag, u⟩ := by
  unfold CheckedDimensionality.new
  rw [h]
  simp [hd]

/-- Inversion of a successful checked construction. -/
lemma checked_new_ok_inv {dims : Dimensionality} {mag : ℚ} {u : UnitExpr} {r : PintQuantity}
    (h : CheckedDimensionality.new dims mag u = .ok r) :
    r = ⟨mag, u⟩ ∧ ∃ d, evalUnit u = .ok d ∧ d.dim = dims := by
  unfold CheckedDimensionality.new at h
  split at h
  · exact absurd h (by simp)
  · rename_i d he
    split at h
    · rename_i hd
      simp only [Except.ok.injEq] at h
      exact ⟨h.symm, d, he, hd⟩
    · exact absurd h (by simp)

/-- `zpowQ` at exponent 1 is the identity. -/
lemma zpowQ_one (q : ℚ) : zpowQ q 1 = q := by
  show q ^ (1 : ℕ) = q
  exact pow_one q

/-- `Dimensionality.smul` by 1 is the identity. -/
lemma Dimensionality.smul_one (a : Dimensionality) : Dimensionality.smul 1 a = a := by
  cases a
  simp [Dimensionality.smul]

/-- Adding the dimensionless dimension is the identity. -/
lemma Dimensionality.add_dimNone (a : Dimensionality) : a.add dimNone = a := by
  cases a
  simp [Dimensionality.add, dimNone]

/-- Unfolding `evalUnit` over a cons cell with successful lookups. -/
lemma evalUnit_cons {s : String} {e : Int} {rest : UnitExpr} {d r : UnitDef}
    (hs : ureg s = some d) (hr : evalUnit rest = .ok r) :
    evalUnit ((s, e) :: rest) =
      .ok ⟨zpowQ d.scale e * r.scale, (Dimensionality.smul e d.dim).add r.dim⟩ := by
  unfold evalUnit
  rw [hs, hr]

/-- A single-symbol unit expression resolves exactly to its registry entry. -/
lemma evalUnit_single {s : String} {u : UnitDef} (hs : ureg s = some u) :
    evalUnit [(s, 1)] = .ok ⟨u.scale, u.dim⟩ := by
  rw [evalUnit_cons hs (by rfl)]
  rw [zpowQ_one, mul_one, Dimensionality.smul_one, Dimensionality.add_dimNone]

/-- Inversion: a resolvable single-symbol unit expression comes from a
registry entry with the same scale and dimension. -/
lemma evalUnit_single_inv {s : String} {d : UnitDef} (h : evalUnit [(s, 1)] = .ok d) :
    ureg s = some ⟨d.scale, d.dim⟩ := by
  cases hs : ureg s with
  | none => unfold evalUnit at h; rw [hs] at h; exact absurd h (by simp)
  | some u =>
    rw [evalUnit_single hs] at h
    simp only [Except.ok.injEq] at h
    rw [← h]

/-- Converting a quantity that is already the result of a conversion to the
same target is the identity on the quantity. -/
lemma to_self {q : PintQuantity} {target : UnitExpr} {r : PintQuantity}
    (h : q.to target = .ok r) : r.to target = .ok r := by
  obtain ⟨src, dst, hq, ht, hd, hr⟩ := to_eq_ok_iff.mp h
  subst hr
  rw [to_eq_ok_of_dim_eq (q := ⟨q.magnitude * src.scale / dst.scale, target⟩) ht ht rfl]
  simp only [Except.ok.injEq]
  congr 1
  exact mul_div_cancel_right₀ _ (evalUnit_scale_ne_zero ht)

/-- Inversion of a successful `rescaleIC`. -/
lemma rescaleIC_ok_inv {units : String} {ic ic' : InstanceClass}
    (h : rescaleIC units ic = .ok ic') :
    ∃ pr, ic.price.to [("usd", 1), (units, -1)] = .ok pr ∧
      ic' = ⟨ic.name, pr, ic.cores, ic.mem, ic.limit, ic.limiting_sets,
             ic.is_reserved, ic.is_private⟩ := by
  unfold rescaleIC at h
  split at h
  · exact absurd h (by simp)
  · rename_i pr hpr
    simp only [Except.ok.injEq] at h
    exact ⟨pr, hpr, h.symm⟩

/-- Inversion of a successful `rescaleWorkload`. -/
lemma rescaleWorkload_ok_inv {units : String} {wl w : WorkloadSeries}
    (h : rescaleWorkload units wl = .ok w) :
    ∃ factor ts, scaleFactor units wl = .ok factor ∧ Time 1 [(units, 1)] = .ok ts ∧
      w = ⟨wl.description, wl.values.map (fun v => ⟨v.magnitude * factor, v.units⟩),
           ts, wl.intra_slot_distribution⟩ := by
  unfold rescaleWorkload at h
  split at h
  · exact absurd h (by simp)
  · rename_i factor hf
    split at h
    · exact absurd h (by simp)
    · rename_i ts hts
      simp only [Except.ok.injEq] at h
      exact ⟨factor, ts, hf, hts, h.symm⟩

/-- Inversion of a successful `rescaleWorkloadEntry`. -/
lemma rescaleWorkloadEntry_ok_inv {units : String} {pr out : App × WorkloadSeries}
    (h : rescaleWorkloadEntry units pr = .ok out) :
    ∃ w, rescaleWorkload units pr.2 = .ok w ∧ out = (pr.1, w) := by
  unfold rescaleWorkloadEntry at h
  split at h
  · exact absurd h (by simp)
  · rename_i w hw
    simp only [Except.ok.injEq] at h
    exact ⟨w, hw, h.symm⟩

/-- Inversion of a successful `rescalePerf`. -/
lemma rescalePerf_ok_inv {units : String} {oldIcs newIcs : List InstanceClass}
    {entry out : PerfKey × PintQuantity}
    (h : rescalePerf units oldIcs newIcs entry = .ok out) :
    ∃ j v ic, pyIndex oldIcs entry.1.1 = some j ∧
      entry.2.to [("req", 1), (units, -1)] = .ok v ∧
      newIcs[j]? = some ic ∧ out = ((ic, entry.1.2.1, entry.1.2.2), v) := by
  unfold rescalePerf at h
  split at h
  · exact absurd h (by simp)
  · rename_i j hj
    split at h
    · exact absurd h (by simp)
    · rename_i v hv
      split at h
      · exact absurd h (by simp)
      · rename_i ic hic
        simp only [Except.ok.injEq] at h
        exact ⟨j, v, ic, hj, hv, hic, h.symm⟩

/-- Inversion of a successful `scaleFactor`. -/
lemma scaleFactor_ok_inv {units : String} {wl : WorkloadSeries} {factor : ℚ}
    (h : scaleFactor units wl = .ok factor) :
    (wl.time_slot_size.magnitude = 0 ∧ factor = 0) ∨
      (wl.time_slot_size.magnitude ≠ 0 ∧
       ∃ c, wl.time_slot_size.to [(units, 1)] = .ok c ∧
         factor = wl.time_slot_size.magnitude / c.magnitude) := by
  unfold scaleFactor at h
  split at h
  · rename_i hne
    split at h
    · exact absurd h (by simp)
    · rename_i c hc
      simp only [Except.ok.injEq] at h
      exact .inr ⟨hne, c, hc, h.symm⟩
  · rename_i hz
    simp only [Except.ok.injEq] at h
    exact .inl ⟨not_not.mp hz, h.symm⟩

/-- The error stages of `normalize_time_units`: a failing scheduling-window
conversion propagates. -/
lemma normalize_err1 {p : Problem} {units : String} {e : UnitsError}
    (h : p.sched_time_size.to [(units, 1)] = .error e) :
    normalize_time_units p units = .error e := by
  unfold normalize_time_units
  rw [h]

/-- A failing workload stage propagates. -/
lemma normalize_err2 {p : Problem} {units : String} {sched : PintQuantity} {e : UnitsError}
    (h1 : p.sched_time_size.to [(units, 1)] = .ok sched)
    (h2 : mapExcept (rescaleWorkloadEntry units) p.workloads = .error e) :
    normalize_time_units p units = .error e := by
  simp only [normalize_time_units, h1, h2]

/-- A failing InstanceClass stage propagates. -/
lemma normalize_err3 {p : Problem} {units : String} {sched : PintQuantity}
    {workloads : List (App × WorkloadSeries)} {e : UnitsError}
    (h1 : p.sched_time_size.to [(units, 1)] = .ok sched)
    (h2 : mapExcept (rescaleWorkloadEntry units) p.workloads = .ok workloads)
    (h3 : mapExcept (rescaleIC units) p.system.ics = .error e) :
    normalize_time_units p units = .error e := by
  simp only [normalize_time_units, h1, h2, h3]

/-- A failing performance stage propagates. -/
lemma normalize_err4 {p : Problem} {units : String} {sched : PintQuantity}
    {workloads : List (App × WorkloadSeries)} {ics : List InstanceClass} {e : UnitsError}
    (h1 : p.sched_time_size.to [(units, 1)] = .ok sched)
    (h2 : mapExcept (rescaleWorkloadEntry units) p.workloads = .ok workloads)
    (h3 : mapExcept (rescaleIC units) p.system.ics = .ok ics)
    (h4 : mapExcept (rescalePerf units p.system.ics ics) p.system.perfs = .error e) :
    normalize_time_units p units = .error e := by
  simp only [normalize_time_units, h1, h2, h3, h4]

/-- Assembling a successful `normalize_time_units` from its four stages. -/
lemma normalize_ok_intro {p : Problem} {units : String} {sched : PintQuantity}
    {workloads : List (App × WorkloadSeries)} {ics : List InstanceClass}
    {perfs : List (PerfKey × PintQuantity)}
    (h1 : p.sched_time_size.to [(units, 1)] = .ok sched)
    (h2 : mapExcept (rescaleWorkloadEntry units) p.workloads = .ok workloads)
    (h3 : mapExcept (rescaleIC units) p.system.ics = .ok ics)
    (h4 : mapExcept (rescalePerf units p.system.ics ics) p.system.perfs = .ok perfs) :
    normalize_time_units p units =
      .ok ⟨p.name, ⟨p.system.name, ics, p.system.ccs, perfs⟩, workloads, sched, p.version⟩ := by
  simp only [normalize_time_units, h1, h2, h3, h4]

/-- pint equality is reflexive. -/
lemma pintEq_refl (q : PintQuantity) : q.pintEq q = true := by
  unfold PintQuantity.pintEq
  cases h : evalUnit q.units <;> simp

/-- Python dataclass equality on `LimitingSet` is reflexive. -/
lemma limitingSet_pyEq_refl (a : LimitingSet) : a.pyEq a = true := by
  unfold LimitingSet.pyEq
  simp [pintEq_refl]

/-- Python tuple equality on `LimitingSet` lists is reflexive. -/
lemma limitingSetsEq_refl : ∀ l : List LimitingSet, limitingSetsEq l l = true
  | [] => rfl
  | a :: rest => by
    unfold limitingSetsEq
    simp [limitingSet_pyEq_refl, limitingSetsEq_refl rest]

/-- Python dataclass equality on `InstanceClass` is reflexive. -/
lemma instanceClass_pyEq_refl (ic : InstanceClass) : ic.pyEq ic = true := by
  unfold InstanceClass.pyEq
  simp [pintEq_refl, limitingSetsEq_refl]

/-- `pyIndex` stays within the list bounds. -/
lemma pyIndex_lt_length {x : InstanceClass} :
    ∀ {l : List InstanceClass} {j : Nat}, pyIndex l x = some j → j < l.length := by
  intro l
  induction l with
  | nil => intro j h; unfold pyIndex at h; exact absurd h (by simp)
  | cons a rest ih =>
    intro j h
    unfold pyIndex at h
    split at h
    · simp only [Option.some.injEq] at h
      subst h
      simp
    · split at h
      · rename_i n hn
        simp only [Option.some.injEq] at h
        subst h
        have := ih hn
        simpa using this
      · exact absurd h (by simp)

/-- An element of the list is found by `pyIndex`. -/
lemma pyIndex_isSome_of_mem {x : InstanceClass} :
    ∀ {l : List InstanceClass}, x ∈ l → ∃ j, pyIndex l x = some j := by
  intro l
  induction l with
  | nil => intro h; simp at h
  | cons a rest ih =>
    intro h
    unfold pyIndex
    by_cases ha : a.pyEq x = true
    · exact ⟨0, by simp [ha]⟩
    · cases List.mem_cons.mp h with
      | inl hax =>
        subst hax
        exact absurd (instanceClass_pyEq_refl x) ha
      | inr hrest =>
        obtain ⟨j, hj⟩ := ih hrest
        exact ⟨j + 1, by simp [ha, hj]⟩

/-- Every output element of a successful `mapExcept` is the successful
image of some input element. -/
lemma mapExcept_ok_mem_rev {f : α → Except UnitsError β} :
    ∀ {l : List α} {l' : List β}, mapExcept f l = .ok l' →
      ∀ y ∈ l', ∃ x ∈ l, f x = .ok y := by
  intro l
  induction l with
  | nil =>
    intro l' h y hy
    unfold mapExcept at h
    simp only [Except.ok.injEq] at h
    subst h
    simp at hy
  | cons a rest ih =>
    intro l' h y hy
    unfold mapExcept at h
    split at h
    · exact absurd h (by simp)
    · rename_i b hb
      split at h
      · exact absurd h (by simp)
      · rename_i bs hbs
        simp only [Except.ok.injEq] at h
        subst h
        cases List.mem_cons.mp hy with
        | inl hyb => exact ⟨a, List.mem_cons_self a rest, hyb ▸ hb⟩
        | inr hybs =>
          obtain ⟨x, hx, hfx⟩ := ih hbs y hybs
          exact ⟨x, List.mem_cons_of_mem a hx, hfx⟩

/-- If `f` is idempotent on its successful outputs, a successful
`mapExcept` is idempotent on its output list. -/
lemma mapExcept_idem {f : α → Except UnitsError α}
    (hf : ∀ x y, f x = .ok y → f y = .ok y) :
    ∀ {l l' : List α}, mapExcept f l = .ok l' → mapExcept f l' = .ok l' := by
  intro l
  induction l with
  | nil =>
    intro l' h
    unfold mapExcept at h
    simp only [Except.ok.injEq] at h
    subst h
    rfl
  | cons a rest ih =>
    intro l' h
    unfold mapExcept at h
    split at h
    · exact absurd h (by simp)
    · rename_i b hb
      split at h
      · exact absurd h (by simp)
      · rename_i bs hbs
        simp only [Except.ok.injEq] at h
        subst h
        unfold mapExcept
        rw [hf a b hb, ih hbs]

/-- If every element maps successfully with a preserved projection `g`,
`mapExcept` succeeds and preserves the projected list. -/
lemma mapExcept_proj {f : α → Except UnitsError α} {g : α → γ} :
    ∀ {l : List α}, (∀ x ∈ l, ∃ y, f x = .ok y ∧ g y = g x) →
      ∃ l2, mapExcept f l = .ok l2 ∧ l2.map g = l.map g := by
  intro l
  induction l with
  | nil => intro _; exact ⟨[], rfl, rfl⟩
  | cons a rest ih =>
    intro h
    obtain ⟨b, hb, hgb⟩ := h a (List.mem_cons_self a rest)
    obtain ⟨bs, hbs, hgbs⟩ := ih (fun x hx => h x (List.mem_cons_of_mem a hx))
    refine ⟨b :: bs, ?_, ?_⟩
    · unfold mapExcept
      rw [hb, hbs]
    · simp [hgb, hgbs]

/-- Rescaling a list of quantities by factor 1 is the identity. -/
lemma map_scale_one : ∀ l : List PintQuantity,
    l.map (fun v => (⟨v.magnitude * 1, v.units⟩ : PintQuantity)) = l
  | [] => rfl
  | v :: rest => by
    rw [List.map_cons, map_scale_one rest, mul_one]

/-- `rescaleIC` is idempotent on its successful outputs. -/
lemma rescaleIC_self {units : String} {ic ic' : InstanceClass}
    (h : rescaleIC units ic = .ok ic') : rescaleIC units ic' = .ok ic' := by
  obtain ⟨pr, hpr, hic⟩ := rescaleIC_ok_inv h
  subst hic
  unfold rescaleIC
  rw [to_self hpr]

/-- `rescaleWorkload` is idempotent on its successful outputs. -/
lemma rescaleWorkload_self {units : String} {wl w : WorkloadSeries}
    (h : rescaleWorkload units wl = .ok w) : rescaleWorkload units w = .ok w := by
  obtain ⟨factor, ts, _, hts, hw⟩ := rescaleWorkload_ok_inv h
  obtain ⟨hts_eq, d, hd, hdim⟩ := checked_new_ok_inv hts
  subst hts_eq
  subst hw
  have hsf : scaleFactor units
      ⟨wl.description, wl.values.map (fun v => ⟨v.magnitude * factor, v.units⟩),
       ⟨1, [(units, 1)]⟩, wl.intra_slot_distribution⟩ = .ok 1 := by
    unfold scaleFactor
    rw [if_pos (by norm_num)]
    rw [to_eq_ok_of_dim_eq hd hd rfl]
    simp [evalUnit_scale_ne_zero hd]
  simp only [rescaleWorkload, hsf, hts, map_scale_one]

/-- `rescaleWorkloadEntry` is idempotent on its successful outputs. -/
lemma rescaleWorkloadEntry_self {units : String} {pr out : App × WorkloadSeries}
    (h : rescaleWorkloadEntry units pr = .ok out) :
    rescaleWorkloadEntry units out = .ok out := by
  obtain ⟨w, hw, hout⟩ := rescaleWorkloadEntry_ok_inv h
  subst hout
  unfold rescaleWorkloadEntry
  rw [rescaleWorkload_self hw]

/-- C1: for every dimensioned quantity subtype with required dimension D,
construction from a resolvable unit expression of a different dimension
fails with DimensionalityError, and construction from an expression with an
unregistered symbol fails with UndefinedUnitError naming that symbol. -/
theorem claim1_dimension_enforcement :
    ∀ (k : QuantKind) (mag : ℚ) (u : UnitExpr),
      (∀ s, evalUnit u = .error s →
        constructQuant k mag u = .error (.undefinedUnit s)) ∧
      (∀ d, evalUnit u = .ok d → d.dim ≠ requiredDim k →
        constructQuant k mag u = .error .dimensionalityError) := by
  intro k mag u
  have hk : constructQuant k = CheckedDimensionality.new (requiredDim k) := by
    cases k <;> rfl
  constructor
  · intro s hs
    rw [hk]
    exact checked_new_err_undefined hs
  · intro d hd hne
    rw [hk]
    exact checked_new_err_dim hd hne

/-- C1 witness: `ComputationalUnits("2 liter")` is a DimensionalityError
and `CurrencyPerTime("20 eur/hour")` is an UndefinedUnitError. -/
theorem claim1_witness :
    constructQuant .computationalUnits 2 [("liter", 1)] = .error .dimensionalityError ∧
    constructQuant .currencyPerTime 20 [("eur", 1), ("hour", -1)] =
      .error (.undefinedUnit "eur") :=
  ⟨(claim1_dimension_enforcement .computationalUnits 2 [("liter", 1)]).2
      ⟨1/1000, ⟨0, 3, 0, 0, 0⟩⟩ (by decide) (by decide),
   (claim1_dimension_enforcement .currencyPerTime 20 [("eur", 1), ("hour", -1)]).1
      "eur" (by decide)⟩

/-- C10: `Storage` checks against the dimensionless dimension `[]`:
construction succeeds exactly on dimensionless inputs and fails with
DimensionalityError on any input with a nonzero physical dimension. -/
theorem claim10_storage_dimensionless :
    ∀ (mag : ℚ) (u : UnitExpr) (d : UnitDef), evalUnit u = .ok d →
      (d.dim = dimNone → Storage mag u = .ok ⟨mag, u⟩) ∧
      (d.dim ≠ dimNone → Storage mag u = .error .dimensionalityError) := by
  intro mag u d h
  exact ⟨fun hd => checked_new_ok h hd, fun hd => checked_new_err_dim h hd⟩

/-- C10 witness: a bare number and a GiB quantity construct, a length
quantity is rejected. -/
theorem claim10_witness :
    Storage 3 [] = .ok ⟨3, []⟩ ∧
    Storage 2 [("GiB", 1)] = .ok ⟨2, [("GiB", 1)]⟩ ∧
    Storage 2 [("cm", 1)] = .error .dimensionalityError :=
  ⟨(claim10_storage_dimensionless 3 [] ⟨1, dimNone⟩ (by decide)).1 (by decide),
   (claim10_storage_dimensionless 2 [("GiB", 1)] ⟨8589934592, dimNone⟩ (by decide)).1
     (by decide),
   (claim10_storage_dimensionless 2 [("cm", 1)] ⟨1/100, ⟨0, 1, 0, 0, 0⟩⟩ (by decide)).2
     (by decide)⟩

/-- C6: conversion round-trip.  For every quantity and every pair of units
compatible with its dimension, converting via `u1` and then to `u2` equals
converting directly to `u2` (exactly, in the rational model).  Conversions
return new quantities; the receiver is a pure value in this embedding, so
no mutation is possible. -/
theorem claim6_conversion_roundtrip :
    ∀ (q : PintQuantity) (u1 u2 : UnitExpr) (d d1 d2 : UnitDef),
      evalUnit q.units = .ok d → evalUnit u1 = .ok d1 → evalUnit u2 = .ok d2 →
      d1.dim = d.dim → d2.dim = d.dim →
      (q.to u1).bind (fun r => r.to u2) = q.to u2 := by
  intro q u1 u2 d d1 d2 hq h1 h2 hd1 hd2
  rw [to_eq_ok_of_dim_eq hq h1 hd1.symm]
  simp only [Except.bind]
  rw [to_eq_ok_of_dim_eq (q := ⟨q.magnitude * d.scale / d1.scale, u1⟩) h1 h2
       (hd1.trans hd2.symm),
     to_eq_ok_of_dim_eq hq h2 hd2.symm]
  simp only [Except.ok.injEq, PintQuantity.mk.injEq, and_true]
  rw [div_mul_cancel₀ _ (evalUnit_scale_ne_zero h1)]

/-- C6 witness: one hour through minutes to seconds equals one hour
directly to seconds. -/
theorem claim6_witness :
    ((⟨1, [("hour", 1)]⟩ : PintQuantity).to [("minute", 1)]).bind
        (fun r => r.to [("second", 1)]) =
      (⟨1, [("hour", 1)]⟩ : PintQuantity).to [("second", 1)] :=
  claim6_conversion_roundtrip ⟨1, [("hour", 1)]⟩ [("minute", 1)] [("second", 1)]
    ⟨3600, dimTime⟩ ⟨60, dimTime⟩ ⟨1, dimTime⟩ (by decide) (by decide) (by decide) rfl rfl

/-- C3 counterexample: `InstanceClass` and `ContainerClass` are plain
frozen dataclasses; a computation-capacity magnitude of -5 millicores
(outside the finite non-negative range) is stored verbatim at
construction, not clamped to zero as the claim states. -/
theorem claim3_counterexample :
    (InstanceClass.mk "ic" ⟨2, [("usd", 1), ("hour", -1)]⟩ ⟨-5, [("millicores", 1)]⟩
        ⟨4, [("GiB", 1)]⟩ 0 [] false false).cores.magnitude = -5 ∧
    ¬ (InstanceClass.mk "ic" ⟨2, [("usd", 1), ("hour", -1)]⟩ ⟨-5, [("millicores", 1)]⟩
        ⟨4, [("GiB", 1)]⟩ 0 [] false false).cores.magnitude = 0 ∧
    (ContainerClass.mk "cc" ⟨-5, [("millicores", 1)]⟩ ⟨1, [("GiB", 1)]⟩ ⟨"a"⟩
        0).cores.magnitude = -5 :=
  ⟨rfl, by norm_num, rfl⟩

/-- C3 amended: constructing a capacity-bearing entity stores the
computation-capacity quantity (whatever its magnitude) unchanged; no
clamping is performed, no error is raised and no diagnostic is emitted. -/
theorem claim3_amended_no_clamp :
    ∀ (n : String) (pr c m : PintQuantity) (lim : Int) (ls : List LimitingSet)
      (r pv : Bool) (cn : String) (cc cm : PintQuantity) (a : App) (cl : Int),
      (InstanceClass.mk n pr c m lim ls r pv).cores = c ∧
      (ContainerClass.mk cn cc cm a cl).cores = cc :=
  fun _ _ _ _ _ _ _ _ _ _ _ _ _ => ⟨rfl, rfl⟩

/-- C8: every InstanceClass produced by `normalize_time_units` differs from
the original at the same position only in its price, which is the original
price converted to usd per target unit; name, cores, mem, limit,
limiting_sets, is_reserved and is_private are exactly equal. -/
theorem claim8_instanceclass_frame :
    ∀ (p : Problem) (units : String) (q : Problem) (i : Nat) (ic ic' : InstanceClass),
      normalize_time_units p units = .ok q →
      p.system.ics[i]? = some ic → q.system.ics[i]? = some ic' →
      ic'.name = ic.name ∧ ic'.cores = ic.cores ∧ ic'.mem = ic.mem ∧
      ic'.limit = ic.limit ∧ ic'.limiting_sets = ic.limiting_sets ∧
      ic'.is_reserved = ic.is_reserved ∧ ic'.is_private = ic.is_private ∧
      ic.price.to [("usd", 1), (units, -1)] = .ok ic'.price := by
  intro p units q i ic ic' h hic hic'
  obtain ⟨sched, workloads, ics, perfs, h1, h2, h3, h4, hq⟩ := normalize_ok_inv h
  subst hq
  obtain ⟨y, hy, hy'⟩ := mapExcept_ok_getElem h3 i ic hic
  have hyic : y = ic' := Option.some.inj (hy'.symm.trans hic')
  subst hyic
  obtain ⟨pr, hpr, hyeq⟩ := rescaleIC_ok_inv hy
  subst hyeq
  exact ⟨rfl, rfl, rfl, rfl, rfl, rfl, rfl, hpr⟩

/-- C8 witness: the single InstanceClass of the example problem keeps all
fields and gets its price converted to usd/hour. -/
theorem claim8_witness :
    exIC.name = exIC.name ∧ exIC.cores = exIC.cores ∧ exIC.mem = exIC.mem ∧
    exIC.limit = exIC.limit ∧ exIC.limiting_sets = exIC.limiting_sets ∧
    exIC.is_reserved = exIC.is_reserved ∧ exIC.is_private = exIC.is_private ∧
    exIC.price.to [("usd", 1), ("hour", -1)] = .ok exIC.price :=
  claim8_instanceclass_frame exProblem "hour" exProblemNorm 0 exIC exIC
    (by decide) (by decide) (by decide)

/-- C7: every performance entry of the normalized Problem is keyed, at the
same position of the table, on the rescaled InstanceClass found at the
original InstanceClass's `list.index` position, with the ContainerClass
and App components unchanged and the value converted to requests per
target unit. -/
theorem claim7_perf_table_keys :
    ∀ (p : Problem) (units : String) (q : Problem) (i j : Nat) (ic ic' : InstanceClass)
      (cc : CCKey) (app : App) (v v' : PintQuantity),
      normalize_time_units p units = .ok q →
      p.system.perfs[i]? = some ((ic, cc, app), v) →
      pyIndex p.system.ics ic = some j →
      v.to [("req", 1), (units, -1)] = .ok v' →
      q.system.ics[j]? = some ic' →
      q.system.perfs[i]? = some ((ic', cc, app), v') := by
  intro p units q i j ic ic' cc app v v' h hperf hj hv hic'
  obtain ⟨sched, workloads, ics, perfs, h1, h2, h3, h4, hq⟩ := normalize_ok_inv h
  subst hq
  obtain ⟨y, hy, hy'⟩ := mapExcept_ok_getElem h4 i _ hperf
  obtain ⟨j0, v0, ic0, hj0, hv0, hic0, hyeq⟩ := rescalePerf_ok_inv hy
  have hjj : j0 = j := Option.some.inj (hj0.symm.trans hj)
  subst hjj
  have hvv : v0 = v' := Except.ok.inj (hv0.symm.trans hv)
  subst hvv
  have hii : ic0 = ic' := Option.some.inj (hic0.symm.trans hic')
  subst hii
  rw [hy', hyeq]

/-- C7 witness: the example problem's single performance entry is re-keyed
on the rescaled InstanceClass and converted to req/hour. -/
theorem claim7_witness :
    exProblemNorm.system.perfs[0]? =
      some ((exIC, none, exApp), ⟨18000, [("req", 1), ("hour", -1)]⟩) :=
  claim7_perf_table_keys exProblem "hour" exProblemNorm 0 0 exIC exIC none exApp
    ⟨5, [("req", 1), ("second", -1)]⟩ ⟨18000, [("req", 1), ("hour", -1)]⟩
    (by decide) (by decide) (by decide) (by decide) (by decide)

/-- C2: `normalize_time_units` preserves magnitude semantics.  The
returned scheduling window is expressed in the target unit and has the
same base value as the original; every InstanceClass price and every
performance value also keep their base values (base-value equality is
"equal when both are expressed in the same unit", exact in the rational
model). -/
theorem claim2_normalization_preserves :
    ∀ (p : Problem) (units : String) (q : Problem),
      normalize_time_units p units = .ok q →
      q.sched_time_size.units = [(units, 1)] ∧
      q.sched_time_size.baseValue = p.sched_time_size.baseValue ∧
      (∀ (i : Nat) (ic ic' : InstanceClass),
        p.system.ics[i]? = some ic → q.system.ics[i]? = some ic' →
        ic'.price.baseValue = ic.price.baseValue) ∧
      (∀ (i : Nat) (e e' : PerfKey × PintQuantity),
        p.system.perfs[i]? = some e → q.system.perfs[i]? = some e' →
        e'.2.baseValue = e.2.baseValue) := by
  intro p units q h
  obtain ⟨sched, workloads, ics, perfs, h1, h2, h3, h4, hq⟩ := normalize_ok_inv h
  subst hq
  refine ⟨to_ok_units h1, to_ok_baseValue h1, ?_, ?_⟩
  · intro i ic ic' hic hic'
    obtain ⟨y, hy, hy'⟩ := mapExcept_ok_getElem h3 i ic hic
    have hyic : y = ic' := Option.some.inj (hy'.symm.trans hic')
    subst hyic
    obtain ⟨pr, hpr, hyeq⟩ := rescaleIC_ok_inv hy
    subst hyeq
    exact to_ok_baseValue hpr
  · intro i e e' he he'
    obtain ⟨y, hy, hy'⟩ := mapExcept_ok_getElem h4 i e he
    have hye : y = e' := Option.some.inj (hy'.symm.trans he')
    subst hye
    obtain ⟨j0, v0, ic0, hj0, hv0, hic0, hyeq⟩ := rescalePerf_ok_inv hy
    subst hyeq
    exact to_ok_baseValue hv0

/-- C2 witness: normalizing the example problem (15-minute scheduling
window) to hours keeps the base values of the window and of the 5
req/second performance entry, and yields magnitude 1/4 for the window. -/
theorem claim2_witness :
    exProblemNorm.sched_time_size.units = [("hour", 1)] ∧
    exProblemNorm.sched_time_size.baseValue = exProblem.sched_time_size.baseValue ∧
    (⟨18000, [("req", 1), ("hour", -1)]⟩ : PintQuantity).baseValue =
      (⟨5, [("req", 1), ("second", -1)]⟩ : PintQuantity).baseValue ∧
    exProblemNorm.sched_time_size.magnitude = 1/4 :=
  have hc := claim2_normalization_preserves exProblem "hour" exProblemNorm (by decide)
  ⟨hc.1, hc.2.1,
   hc.2.2.2 0 ((exIC, none, exApp), ⟨5, [("req", 1), ("second", -1)]⟩)
     ((exIC, none, exApp), ⟨18000, [("req", 1), ("hour", -1)]⟩) (by decide) (by decide),
   by decide⟩

/-- C4: a WorkloadSeries whose slot duration has magnitude exactly 0 does
not make `normalize_time_units` divide by it: the scale factor is defined
as zero, and every rescaled workload value in the resulting Problem has
magnitude zero. -/
theorem claim4_zero_duration :
    ∀ (p : Problem) (units : String) (q : Problem) (i : Nat) (app app' : App)
      (wl wl' : WorkloadSeries),
      normalize_time_units p units = .ok q →
      p.workloads[i]? = some (app, wl) →
      wl.time_slot_size.magnitude = 0 →
      q.workloads[i]? = some (app', wl') →
      scaleFactor units wl = .ok 0 ∧ ∀ v ∈ wl'.values, v.magnitude = 0 := by
  intro p units q i app app' wl wl' h hwl hz hwl'
  have hsf : scaleFactor units wl = .ok 0 := by
    unfold scaleFactor
    rw [if_neg (not_not_intro hz)]
  refine ⟨hsf, ?_⟩
  obtain ⟨sched, workloads, ics, perfs, h1, h2, h3, h4, hq⟩ := normalize_ok_inv h
  subst hq
  obtain ⟨y, hy, hy'⟩ := mapExcept_ok_getElem h2 i _ hwl
  have hye : y = (app', wl') := Option.some.inj (hy'.symm.trans hwl')
  subst hye
  obtain ⟨w, hw, hout⟩ := rescaleWorkloadEntry_ok_inv hy
  have hwlw : wl' = w := congrArg Prod.snd hout
  subst hwlw
  obtain ⟨factor, ts, hf, hts, hweq⟩ := rescaleWorkload_ok_inv hw
  have hfz : factor = 0 := Except.ok.inj (hf.symm.trans hsf)
  subst hfz
  intro v hv
  rw [hweq] at hv
  obtain ⟨v0, _, hv0⟩ := List.mem_map.mp hv
  rw [← hv0]
  exact mul_zero _

/-- C4 witness: the zero-slot example problem normalizes with scale factor
zero and a zero workload value. -/
theorem claim4_witness :
    scaleFactor "hour"
      ⟨"wl", [⟨10, [("req", 1)]⟩], ⟨0, [("minute", 1)]⟩, "exponential"⟩ = .ok 0 ∧
    (⟨0, [("req", 1)]⟩ : PintQuantity).magnitude = 0 :=
  have hc := claim4_zero_duration exProblemZeroSlot "hour"
    ⟨"p", ⟨"sys", [], [], []⟩,
     [(exApp, ⟨"wl", [⟨0, [("req", 1)]⟩], ⟨1, [("hour", 1)]⟩, "exponential"⟩)],
     ⟨1/4, [("hour", 1)]⟩, "0.2.0"⟩ 0 exApp exApp
    ⟨"wl", [⟨10, [("req", 1)]⟩], ⟨0, [("minute", 1)]⟩, "exponential"⟩
    ⟨"wl", [⟨0, [("req", 1)]⟩], ⟨1, [("hour", 1)]⟩, "exponential"⟩
    (by decide) (by decide) (by decide) (by decide)
  ⟨hc.1, hc.2 ⟨0, [("req", 1)]⟩ (by decide)⟩

/-- C5: `normalize_time_units` is idempotent up to unit representation.
Normalizing an already-normalized Problem again to the same target unit
succeeds and reproduces the scheduling window, workloads, instance classes
(hence prices), and the (container, app) parts and values of every
performance entry exactly (in the rational model, "within tolerance"
becomes exact equality). -/
theorem claim5_normalization_idempotent :
    ∀ (p : Problem) (units : String) (q : Problem),
      normalize_time_units p units = .ok q → renormalizeMatches q units := by
  intro p units q h
  obtain ⟨sched, workloads, ics, perfs, h1, h2, h3, h4, hq⟩ := normalize_ok_inv h
  subst hq
  have h1' : sched.to [(units, 1)] = .ok sched := to_self h1
  have h2' : mapExcept (rescaleWorkloadEntry units) workloads = .ok workloads :=
    mapExcept_idem (fun x y hxy => rescaleWorkloadEntry_self hxy) h2
  have h3' : mapExcept (rescaleIC units) ics = .ok ics :=
    mapExcept_idem (fun x y hxy => rescaleIC_self hxy) h3
  have h4' : ∃ perfs2, mapExcept (rescalePerf units ics ics) perfs = .ok perfs2 ∧
      perfs2.map (fun e => (e.1.2, e.2)) = perfs.map (fun e => (e.1.2, e.2)) := by
    apply mapExcept_proj
    intro out hout
    obtain ⟨entry, _, hfe⟩ := mapExcept_ok_mem_rev h4 out hout
    obtain ⟨j0, v0, ic0, hj0, hv0, hic0, houteq⟩ := rescalePerf_ok_inv hfe
    subst houteq
    have hic0mem : ic0 ∈ ics := List.getElem?_mem hic0
    obtain ⟨j1, hj1⟩ := pyIndex_isSome_of_mem hic0mem
    have hj1len : j1 < ics.length := pyIndex_lt_length hj1
    refine ⟨((ics[j1], entry.1.2.1, entry.1.2.2), v0), ?_, rfl⟩
    simp only [rescalePerf, hj1, to_self hv0, List.getElem?_eq_getElem hj1len]
  obtain ⟨perfs2, h4'', hproj⟩ := h4'
  unfold renormalizeMatches
  rw [normalize_ok_intro h1' h2' h3' h4'']
  exact ⟨rfl, rfl, rfl, hproj⟩

/-- C5 witness: re-normalizing the normalized example problem to hours
reproduces it. -/
theorem claim5_witness : renormalizeMatches exProblemNorm "hour" :=
  claim5_normalization_idempotent exProblem "hour" exProblemNorm (by decide)

/-- When both unit expressions resolve, the only error `to` can raise is a
DimensionalityError. -/
lemma to_err_char {q : PintQuantity} {target : UnitExpr} {e : UnitsError} {src dst : UnitDef}
    (hq : evalUnit q.units = .ok src) (ht : evalUnit target = .ok dst)
    (h : q.to target = .error e) : e = .dimensionalityError := by
  unfold PintQuantity.to at h
  split at h
  · rename_i s hs
    rw [hs] at ht
    exact absurd ht (by simp)
  · rename_i dst' hdst
    split at h
    · rename_i s hs
      rw [hs] at hq
      exact absurd hq (by simp)
    · rename_i src' hsrc
      split at h
      · exact absurd h (by simp)
      · simp only [Except.error.injEq] at h
        exact h.symm

/-- When the unit expression resolves, the only error a checked
construction can raise is a DimensionalityError. -/
lemma checked_new_err_char {dims : Dimensionality} {mag : ℚ} {u : UnitExpr} {e : UnitsError}
    {d : UnitDef} (hu : evalUnit u = .ok d)
    (h : CheckedDimensionality.new dims mag u = .error e) : e = .dimensionalityError := by
  unfold CheckedDimensionality.new at h
  split at h
  · rename_i s hs
    rw [hs] at hu
    exact absurd hu (by simp)
  · split at h
    · exact absurd h (by simp)
    · simp only [Except.error.injEq] at h
      exact h.symm

/-- If every element of the list can only fail with error `E`, so can
`mapExcept`. -/
lemma mapExcept_err_char {f : α → Except UnitsError β} {E : UnitsError} :
    ∀ {l : List α} {e : UnitsError}, mapExcept f l = .error e →
      (∀ x ∈ l, ∀ e', f x = .error e' → e' = E) → e = E := by
  intro l
  induction l with
  | nil =>
    intro e h _
    unfold mapExcept at h
    exact absurd h (by simp)
  | cons a rest ih =>
    intro e h hall
    unfold mapExcept at h
    split at h
    · rename_i e' he'
      simp only [Except.error.injEq] at h
      exact h ▸ hall a (List.mem_cons_self a rest) e' he'
    · rename_i b hb
      split at h
      · rename_i e' he'
        simp only [Except.error.injEq] at h
        exact h ▸ ih he' (fun x hx => hall x (List.mem_cons_of_mem a hx))
      · exact absurd h (by simp)

/-- With resolvable slot units and target, the only error `scaleFactor`
can raise is a DimensionalityError. -/
lemma scaleFactor_err_char {units : String} {wl : WorkloadSeries} {e : UnitsError}
    {sd d : UnitDef} (hs : evalUnit wl.time_slot_size.units = .ok sd)
    (hu : evalUnit [(units, 1)] = .ok d)
    (h : scaleFactor units wl = .error e) : e = .dimensionalityError := by
  unfold scaleFactor at h
  split at h
  · split at h
    · rename_i e' he'
      simp only [Except.error.injEq] at h
      exact h ▸ to_err_char hs hu he'
    · exact absurd h (by simp)
  · exact absurd h (by simp)

/-- With resolvable slot units and a time-dimension target, the only error
`rescaleWorkloadEntry` can raise is a DimensionalityError. -/
lemma rescaleWorkloadEntry_err_char {units : String} {pr : App × WorkloadSeries}
    {e : UnitsError} {sd d : UnitDef}
    (hs : evalUnit pr.2.time_slot_size.units = .ok sd)
    (hu : evalUnit [(units, 1)] = .ok d) (hd : d.dim = dimTime)
    (h : rescaleWorkloadEntry units pr = .error e) : e = .dimensionalityError := by
  unfold rescaleWorkloadEntry at h
  split at h
  · rename_i e' he'
    simp only [Except.error.injEq] at h
    subst h
    unfold rescaleWorkload at he'
    split at he'
    · rename_i e'' he''
      simp only [Except.error.injEq] at he'
      exact he' ▸ scaleFactor_err_char hs hu he''
    · split at he'
      · rename_i e'' he''
        simp only [Except.error.injEq] at he'
        subst he'
        rw [show Time = CheckedDimensionality.new dimTime from rfl] at he''
        rw [checked_new_ok hu hd] at he''
        exact absurd he'' (by simp)
      · exact absurd he' (by simp)
  · exact absurd h (by simp)

/-- With a resolvable price and target, the only error `rescaleIC` can
raise is a DimensionalityError. -/
lemma rescaleIC_err_char {units : String} {ic : InstanceClass} {e : UnitsError}
    {sd t : UnitDef} (hp : evalUnit ic.price.units = .ok sd)
    (ht : evalUnit [("usd", 1), (units, -1)] = .ok t)
    (h : rescaleIC units ic = .error e) : e = .dimensionalityError := by
  unfold rescaleIC at h
  split at h
  · rename_i e' he'
    simp only [Except.error.injEq] at h
    exact h ▸ to_err_char hp ht he'
  · exact absurd h (by simp)

/-- With a found InstanceClass, a resolvable value and target, and a new
list at least as long as the old one, the only error `rescalePerf` can
raise is a DimensionalityError. -/
lemma rescalePerf_err_char {units : String} {oldIcs newIcs : List InstanceClass}
    {entry : PerfKey × PintQuantity} {e : UnitsError} {sd t : UnitDef}
    (hfound : (pyIndex oldIcs entry.1.1).isSome = true)
    (hv : evalUnit entry.2.units = .ok sd)
    (ht : evalUnit [("req", 1), (units, -1)] = .ok t)
    (hlen : newIcs.length = oldIcs.length)
    (h : rescalePerf units oldIcs newIcs entry = .error e) : e = .dimensionalityError := by
  unfold rescalePerf at h
  split at h
  · rename_i hnone
    rw [hnone] at hfound
    exact absurd hfound (by simp)
  · rename_i j hj
    split at h
    · rename_i e' he'
      simp only [Except.error.injEq] at h
      exact h ▸ to_err_char hv ht he'
    · split at h
      · rename_i hnone
        have hjlen : j < newIcs.length := hlen ▸ pyIndex_lt_length hj
        rw [List.getElem?_eq_getElem hjlen] at hnone
        exact absurd hnone (by simp)
      · exact absurd h (by simp)

/-- Inversion of a failing `normalize_time_units`: the error arises at one
of the four stages, the earlier stages having succeeded. -/
lemma normalize_err_inv {p : Problem} {units : String} {e : UnitsError}
    (h : normalize_time_units p units = .error e) :
    p.sched_time_size.to [(units, 1)] = .error e ∨
    (mapExcept (rescaleWorkloadEntry units) p.workloads = .error e) ∨
    (mapExcept (rescaleIC units) p.system.ics = .error e) ∨
    (∃ ics, mapExcept (rescaleIC units) p.system.ics = .ok ics ∧
      mapExcept (rescalePerf units p.system.ics ics) p.system.perfs = .error e) := by
  unfold normalize_time_units at h
  split at h
  · rename_i e' h1
    simp only [Except.error.injEq] at h
    exact .inl (h ▸ h1)
  · rename_i sched h1
    split at h
    · rename_i e' h2
      simp only [Except.error.injEq] at h
      exact .inr (.inl (h ▸ h2))
    · rename_i workloads h2
      split at h
      · rename_i e' h3
        simp only [Except.error.injEq] at h
        exact .inr (.inr (.inl (h ▸ h3)))
      · rename_i ics h3
        split at h
        · rename_i e' h4
          simp only [Except.error.injEq] at h
          exact .inr (.inr (.inr ⟨ics, h3, h ▸ h4⟩))
        · exact absurd h (by simp)

/-- `unitsOk` means the unit expression resolves. -/
lemma unitsOk_iff {q : PintQuantity} : unitsOk q = true ↔ ∃ d, evalUnit q.units = .ok d := by
  unfold unitsOk
  cases h : evalUnit q.units <;> simp

/-- `dimIs` means the unit expression resolves to the given dimension. -/
lemma dimIs_iff {q : PintQuantity} {d0 : Dimensionality} :
    dimIs q d0 = true ↔ ∃ d, evalUnit q.units = .ok d ∧ d.dim = d0 := by
  unfold dimIs
  cases h : evalUnit q.units <;> simp

/-- Resolving a `base/units` pair when `base` is registered and `units`
resolves on its own. -/
lemma evalUnit_target_pair (base : String) (bd : UnitDef) {units : String} {d : UnitDef}
    (hb : ureg base = some bd) (hu : evalUnit [(units, 1)] = .ok d) :
    evalUnit [(base, 1), (units, -1)] =
      .ok ⟨zpowQ bd.scale 1 * (zpowQ d.scale (-1) * 1),
           (Dimensionality.smul 1 bd.dim).add
             ((Dimensionality.smul (-1) d.dim).add dimNone)⟩ := by
  have hur := evalUnit_single_inv hu
  have h2 : evalUnit [(units, -1)] =
      .ok ⟨zpowQ d.scale (-1) * 1, (Dimensionality.smul (-1) d.dim).add dimNone⟩ :=
    evalUnit_cons hur (by rfl)
  exact evalUnit_cons hb h2

/-- A successful `normalize_time_units` with a time-dimension target means
every converted quantity carried the dimension its conversion required. -/
lemma normalize_ok_dims {p : Problem} {units : String} {q : Problem} {d : UnitDef}
    (hu : evalUnit [(units, 1)] = .ok d) (hd : d.dim = dimTime)
    (h : normalize_time_units p units = .ok q) : convertedDimsOk p = true := by
  obtain ⟨sched, workloads, ics, perfs, h1, h2, h3, h4, _⟩ := normalize_ok_inv h
  have htu := evalUnit_target_pair "usd" ⟨1, dimCurrency⟩ (by decide) hu
  have htr := evalUnit_target_pair "req" ⟨1, dimRequests⟩ (by decide) hu
  have c1 : dimIs p.sched_time_size dimTime = true := by
    obtain ⟨src, dst, hsrc, hdst, hdims, _⟩ := to_eq_ok_iff.mp h1
    have hdd : dst = d := Except.ok.inj (hdst.symm.trans hu)
    exact dimIs_iff.mpr ⟨src, hsrc, by rw [hdims, hdd, hd]⟩
  have c2 : p.workloads.all (fun pr =>
      decide (pr.2.time_slot_size.magnitude = 0) ||
        dimIs pr.2.time_slot_size dimTime) = true := by
    rw [List.all_eq_true]
    intro pr hpr
    obtain ⟨y, hy⟩ := mapExcept_ok_mem h2 pr hpr
    obtain ⟨w, hw, _⟩ := rescaleWorkloadEntry_ok_inv hy
    obtain ⟨factor, ts, hsf, _, _⟩ := rescaleWorkload_ok_inv hw
    rcases scaleFactor_ok_inv hsf with ⟨hz, _⟩ | ⟨hnz, c, hc, _⟩
    · simp [hz]
    · obtain ⟨src, dst, hsrc, hdst, hdims, _⟩ := to_eq_ok_iff.mp hc
      have hdd : dst = d := Except.ok.inj (hdst.symm.trans hu)
      have : dimIs pr.2.time_slot_size dimTime = true :=
        dimIs_iff.mpr ⟨src, hsrc, by rw [hdims, hdd, hd]⟩
      simp [this]
  have c3 : p.system.ics.all (fun ic => dimIs ic.price dimCurrencyPerTime) = true := by
    rw [List.all_eq_true]
    intro ic hic
    obtain ⟨y, hy⟩ := mapExcept_ok_mem h3 ic hic
    obtain ⟨pr, hpr, _⟩ := rescaleIC_ok_inv hy
    obtain ⟨src, dst, hsrc, hdst, hdims, _⟩ := to_eq_ok_iff.mp hpr
    have hddim : dst.dim = dimCurrencyPerTime := by
      have hdd := Except.ok.inj (hdst.symm.trans htu)
      rw [hdd]
      show (Dimensionality.smul 1 dimCurrency).add
        ((Dimensionality.smul (-1) d.dim).add dimNone) = dimCurrencyPerTime
      rw [hd]
      decide
    exact dimIs_iff.mpr ⟨src, hsrc, hdims.trans hddim⟩
  have c4 : p.system.perfs.all (fun e => dimIs e.2 dimRequestsPerTime) = true := by
    rw [List.all_eq_true]
    intro en hen
    obtain ⟨y, hy⟩ := mapExcept_ok_mem h4 en hen
    obtain ⟨j0, v0, ic0, _, hv0, _, _⟩ := rescalePerf_ok_inv hy
    obtain ⟨src, dst, hsrc, hdst, hdims, _⟩ := to_eq_ok_iff.mp hv0
    have hddim : dst.dim = dimRequestsPerTime := by
      have hdd := Except.ok.inj (hdst.symm.trans htr)
      rw [hdd]
      show (Dimensionality.smul 1 dimRequests).add
        ((Dimensionality.smul (-1) d.dim).add dimNone) = dimRequestsPerTime
      rw [hd]
      decide
    exact dimIs_iff.mpr ⟨src, hsrc, hdims.trans hddim⟩
  simp [convertedDimsOk, c1, c2, c3, c4]

/-- C9: with every touched quantity resolvable and every performance key's
InstanceClass present, `normalize_time_units` fails with a
DimensionalityError whenever the registered target unit is not a time unit
(on a Problem whose scheduling window is a genuine time quantity), and
whenever the target is a time unit but some converted quantity does not
carry the dimension its conversion requires; in both cases no result
Problem is produced. -/
theorem claim9_dimensionality_failure :
    ∀ (p : Problem) (units : String) (d : UnitDef),
      evalUnit [(units, 1)] = .ok d → allRegistered p = true →
      (d.dim ≠ dimTime → dimIs p.sched_time_size dimTime = true →
        normalize_time_units p units = .error .dimensionalityError) ∧
      (d.dim = dimTime → convertedDimsOk p = false →
        normalize_time_units p units = .error .dimensionalityError) := by
  intro p units d hu hreg
  simp only [allRegistered, Bool.and_eq_true, List.all_eq_true] at hreg
  obtain ⟨⟨⟨r1, r2⟩, r3⟩, r4⟩ := hreg
  constructor
  · intro hne hsched
    obtain ⟨src, hsrc, hsd⟩ := dimIs_iff.mp hsched
    refine normalize_err1 (to_eq_err_of_dim_ne hsrc hu ?_)
    rw [hsd]
    exact fun hc => hne hc.symm
  · intro hd hdims
    have htu := evalUnit_target_pair "usd" ⟨1, dimCurrency⟩ (by decide) hu
    have htr := evalUnit_target_pair "req" ⟨1, dimRequests⟩ (by decide) hu
    cases hN : normalize_time_units p units with
    | ok q =>
      have := normalize_ok_dims hu hd hN
      rw [hdims] at this
      exact absurd this (by decide)
    | error e =>
      have he : e = .dimensionalityError := by
        rcases normalize_err_inv hN with h1 | h2 | h3 | ⟨ics, h3ok, h4⟩
        · obtain ⟨sd, hs⟩ := unitsOk_iff.mp r1
          exact to_err_char hs hu h1
        · refine mapExcept_err_char h2 (fun pr hpr e' he' => ?_)
          obtain ⟨sd, hs⟩ := unitsOk_iff.mp (r2 pr hpr)
          exact rescaleWorkloadEntry_err_char hs hu hd he'
        · refine mapExcept_err_char h3 (fun ic hic e' he' => ?_)
          obtain ⟨sd, hs⟩ := unitsOk_iff.mp (r3 ic hic)
          exact rescaleIC_err_char hs htu he'
        · refine mapExcept_err_char h4 (fun en hen e' he' => ?_)
          have r4' := r4 en hen
          simp only [Bool.and_eq_true] at r4'
          obtain ⟨hv, hfound⟩ := r4'
          obtain ⟨sd, hs⟩ := unitsOk_iff.mp hv
          exact rescalePerf_err_char hfound hs htr (mapExcept_ok_length h3ok) he'
      rw [he]

/-- C9 witness: normalizing the example problem to the registered non-time
unit "usd" fails with a DimensionalityError, and normalizing a problem
whose price has dimension `[currency]` (not `[currency]/[time]`) to "hour"
also fails with a DimensionalityError. -/
theorem claim9_witness :
    normalize_time_units exProblem "usd" = .error .dimensionalityError ∧
    normalize_time_units exProblemBadPrice "hour" = .error .dimensionalityError :=
  ⟨(claim9_dimensionality_failure exProblem "usd" ⟨1, dimCurrency⟩ (by decide)
      (by decide)).1 (by decide) (by decide),
   (claim9_dimensionality_failure exProblemBadPrice "hour" ⟨3600, dimTime⟩ (by decide)
      (by decide)).2 rfl (by decide)⟩
